import Mathlib

set_option maxRecDepth 8192

/-!
Verification development for the csesh session-store core.

Shallow embedding of the classifier (src/lib/colors.js, src/lib/utils.js),
the deep analyzer's language detection (src/lib/analyzer.js), the scan cache
(cache module), the head+tail reader of the scanner (src/lib/scanner.js) and
the trash/restore subsystem (src/lib/cleanup.js).

JavaScript value conventions used throughout the embedding:
absent / `undefined` numeric and string fields are `Option` values;
a JS comparison such as `undefined < 1024` evaluates to `false`
(NaN semantics), `undefined === 0` is `false`, and `x || 0` maps both
`undefined` and `0` to `0`.  These are captured by the `js*` helpers below.
-/

namespace Csesh

/-- JS `a < b` where `a` may be `undefined` (absent field): false when absent. -/
def jsLt (a : Option Nat) (b : Nat) : Bool :=
  match a with
  | some x => x < b
  | none => false

/-- JS `a > b` where `a` may be `undefined`: false when absent. -/
def jsGt (a : Option Nat) (b : Nat) : Bool :=
  match a with
  | some x => b < x
  | none => false

/-- JS `a >= b` where `a` may be `undefined`: false when absent. -/
def jsGe (a : Option Nat) (b : Nat) : Bool :=
  match a with
  | some x => b ≤ x
  | none => false

/-- JS `a <= b` where `a` may be `undefined`: false when absent. -/
def jsLe (a : Option Nat) (b : Nat) : Bool :=
  match a with
  | some x => x ≤ b
  | none => false

/-- JS strict equality `a === b` against a number: false when absent. -/
def jsEq (a : Option Nat) (b : Nat) : Bool :=
  match a with
  | some x => x = b
  | none => false

/-- JS `(a + b) <= c`: `undefined + x` is NaN, and `NaN <= c` is false. -/
def jsAddLe (a b : Option Nat) (c : Nat) : Bool :=
  match a, b with
  | some x, some y => x + y ≤ c
  | _, _ => false

/-- JS `x || 0` on a possibly-absent numeric field. -/
def orZero (a : Option Nat) : Nat := a.getD 0

/-- JS truthiness of a possibly-absent string (`undefined` and `""` are falsy). -/
def jsTruthy (s : Option String) : Bool :=
  match s with
  | some t => t ≠ ""
  | none => false

/-! ### Junk title patterns (src/lib/utils.js, JUNK_PATTERNS / isJunkMessage)

The JUNK_PATTERNS are anchored, case-insensitive regexes tested against the
trimmed text; each matches a fixed word (with an optional leading slash for
`init` and `help`/`h`), the empty string, or a single dot.  On the trimmed
string they are exactly these case-insensitive literal alternatives. -/

def junkLiterals : List String :=
  ["init", "/init", "exit", "ls", "pwd", "q", "quit",
   "help", "/help", "h", "/h", "--continue", "--resume", "", ".", "test"]

/-- `isJunkMessage(text)` from src/lib/utils.js: false for falsy text, else
trim and test the JUNK_PATTERNS (case-insensitively). -/
def isJunkMessage (text : String) : Bool :=
  if text = "" then false
  else junkLiterals.contains text.trim.toLower

/-! ### The classifier (src/lib/colors.js) -/

/-- A session summary as consumed by `classify`.  Absent (`undefined`)
fields are `none`. -/
structure Session where
  category : Option String := none
  fileSizeBytes : Option Nat := none
  userMessageCount : Option Nat := none
  assistantMessageCount : Option Nat := none
  totalRecordCount : Option Nat := none
  durationMs : Option Nat := none
  totalToolCalls : Option Nat := none
  turnCount : Option Nat := none
  thinkingBlocks : Option Nat := none
  uniqueFilesCount : Option Nat := none
  title : Option String := none
  tierOverride : Option Nat := none
  deriving DecidableEq, Repr

def TIER_AUTO_DELETE : Nat := 1
def TIER_SUGGESTED : Nat := 2
def TIER_REVIEW : Nat := 3
def TIER_KEEP : Nat := 4

/-- `TIER_LABELS` object: defined only on tiers 1-4 (undefined elsewhere). -/
def TIER_LABELS : Nat → Option String := fun t =>
  if t = 1 then some "auto-delete"
  else if t = 2 then some "suggested-delete"
  else if t = 3 then some "review"
  else if t = 4 then some "keep"
  else none

/-- `TIER_SCORES` object: 1.0 / 0.7 / 0.4 / 0.1 for tiers 1-4, undefined
elsewhere. -/
def TIER_SCORES : Nat → Option ℚ := fun t =>
  if t = 1 then some 1
  else if t = 2 then some (7/10)
  else if t = 3 then some (2/5)
  else if t = 4 then some (1/10)
  else none

/-- `isTier1(session, reasons)`: returns the reasons pushed when some tier-1
condition matches (the source pushes exactly one reason and returns true),
`none` when no condition matches. -/
def isTier1 (s : Session) : Option (List String) :=
  if s.category = some "empty" then
    some ["empty session (no records)"]
  else if s.category = some "hook-only" then
    some ["hook-only (system events, no conversation)"]
  else if s.category = some "snapshot-only" then
    some ["snapshot-only (file history, no conversation)"]
  else if jsLt s.fileSizeBytes 1024 && jsEq s.userMessageCount 0 then
    some ["tiny file with no user messages"]
  else if jsLe s.totalRecordCount 2 && jsEq s.userMessageCount 0 then
    some ["minimal records, no user messages"]
  else none

/-- `isTier4(session)`: deep-analysis signals (defaulted to 0 via `|| 0`),
then fast-scan fallbacks. -/
def isTier4 (s : Session) : Bool :=
  let turnCount := orZero s.turnCount
  let toolCalls := orZero s.totalToolCalls
  let thinkingBlocks := orZero s.thinkingBlocks
  let filesCount := orZero s.uniqueFilesCount
  if 4 ≤ turnCount then true
  else if 3 ≤ toolCalls then true
  else if 2 ≤ thinkingBlocks then true
  else if 2 ≤ filesCount then true
  else if jsGt s.durationMs 300000 then true
  else if jsGe s.userMessageCount 3 && jsGe s.assistantMessageCount 3 then true
  else if jsGt s.fileSizeBytes 50000 && jsGe s.userMessageCount 2 then true
  else false

/-- `isTier2(session, reasons)`: as `isTier1`, returning the pushed reason. -/
def isTier2 (s : Session) : Option (List String) :=
  if jsEq s.userMessageCount 1 && jsLe s.assistantMessageCount 1 &&
      jsLt s.durationMs 60000 then
    some ["single brief exchange (< 1 min)"]
  else if jsTruthy s.title && isJunkMessage (s.title.getD "") then
    some [junkPatternReason (s.title.getD "")]
  else if jsGt s.userMessageCount 0 && jsEq s.assistantMessageCount 0 then
    some ["no assistant response (abandoned)"]
  else if orZero s.totalToolCalls = 0 && jsLe s.userMessageCount 2 &&
      jsLt s.durationMs 120000 then
    some ["short session with no tool usage"]
  else if jsLt s.fileSizeBytes 4096 &&
      jsAddLe s.userMessageCount s.assistantMessageCount 2 then
    some ["tiny session (< 4KB, ≤ 2 messages)"]
  else none
where
  junkPatternReason (t : String) : String := "junk pattern: \"" ++ t ++ "\""

/-- `computeReviewReasons(session, reasons)`. -/
def computeReviewReasons (s : Session) : List String :=
  let r1 : List String := if jsLe s.userMessageCount 2 then ["few user messages"] else []
  let r2 : List String :=
    if jsLt s.durationMs 120000 && jsGt s.durationMs 0 then ["short duration"] else []
  let r3 : List String := if jsEq s.assistantMessageCount 0 then ["no assistant response"] else []
  let rs := r1 ++ r2 ++ r3
  if rs = [] then ["needs manual review"] else rs

/-- The classification output written onto the session by `applyTier`. -/
structure Classified where
  tier : Nat
  tierLabel : Option String
  autoTier : Nat
  junkScore : Option ℚ
  junkReasons : List String
  deriving DecidableEq, Repr

/-- `applyTier(session, tier, reasons)` — applies the user's tier override to
the visible tier while keeping the computed tier in `autoTier`. -/
def applyTier (s : Session) (tier : Nat) (reasons : List String) : Classified :=
  let effectiveTier := match s.tierOverride with
    | some t => t
    | none => tier
  { tier := effectiveTier
    tierLabel := TIER_LABELS effectiveTier
    autoTier := tier
    junkScore := TIER_SCORES effectiveTier
    junkReasons := reasons }

/-- `classify(session)`: tier tests in source order 1, 4, 2, then 3 as
fallback, first match winning. -/
def classify (s : Session) : Classified :=
  match isTier1 s with
  | some reasons => applyTier s TIER_AUTO_DELETE reasons
  | none =>
    if isTier4 s then applyTier s TIER_KEEP []
    else
      match isTier2 s with
      | some reasons => applyTier s TIER_SUGGESTED reasons
      | none => applyTier s TIER_REVIEW (computeReviewReasons s)

/-- `junkLabel(score)` from src/lib/colors.js. -/
def junkLabel (score : ℚ) : String :=
  if 6/10 ≤ score then "junk"
  else if 3/10 ≤ score then "maybe"
  else "real"

/-- Replacing the deep-analysis numeric fields (the ones the classifier reads
through `|| 0`) by their zero-defaulted values. -/
def defaultDeepFields (s : Session) : Session :=
  { s with
    turnCount := some (orZero s.turnCount)
    totalToolCalls := some (orZero s.totalToolCalls)
    thinkingBlocks := some (orZero s.thinkingBlocks)
    uniqueFilesCount := some (orZero s.uniqueFilesCount) }

/-- Replacing every absent numeric field of a summary by `0` (what the spec
asserts classification is insensitive to). -/
def zeroAllNumeric (s : Session) : Session :=
  { s with
    fileSizeBytes := some (orZero s.fileSizeBytes)
    userMessageCount := some (orZero s.userMessageCount)
    assistantMessageCount := some (orZero s.assistantMessageCount)
    totalRecordCount := some (orZero s.totalRecordCount)
    durationMs := some (orZero s.durationMs)
    totalToolCalls := some (orZero s.totalToolCalls)
    turnCount := some (orZero s.turnCount)
    thinkingBlocks := some (orZero s.thinkingBlocks)
    uniqueFilesCount := some (orZero s.uniqueFilesCount) }

/-- The concrete example of the spec: category `empty` with a high turn
count. -/
def emptyHighTurns : Session :=
  { category := some "empty", turnCount := some 100 }

lemma applyTier_autoTier (s : Session) (t : Nat) (rs : List String) :
    (applyTier s t rs).autoTier = t := rfl

lemma applyTier_junkScore_eq_tier (s : Session) (t : Nat) (rs : List String) :
    (applyTier s t rs).junkScore = TIER_SCORES (applyTier s t rs).tier := by
  unfold applyTier
  cases s.tierOverride <;> rfl

lemma applyTier_tier_of_noOverride (s : Session) (t : Nat) (rs : List String)
    (h : s.tierOverride = none) : (applyTier s t rs).tier = t := by
  unfold applyTier
  rw [h]

/-- `classify` always returns through `applyTier`, at the computed tier and
reasons it recorded. -/
lemma classify_eq_applyTier (s : Session) :
    classify s = applyTier s (classify s).autoTier (classify s).junkReasons := by
  unfold classify
  cases isTier1 s with
  | some rs => rfl
  | none =>
    by_cases h4 : isTier4 s
    · rw [if_pos h4]
      rfl
    · simp only [h4, if_false]
      cases isTier2 s with
      | some rs => rfl
      | none => rfl

end Csesh

namespace Csesh

/-- C6: tier tests run in the fixed order 1, 4, 2, 3, first match winning;
any summary matching a tier-1 condition gets autoTier 1 (and visible tier 1
when no override is set), so tier 1 dominates all KEEP signals; in
particular `{category: 'empty', turnCount: 100}` classifies as tier 1. -/
theorem classify_order_tier1_dominates :
    (∀ s : Session, (classify s).autoTier =
      (if (isTier1 s).isSome then 1
       else if isTier4 s then 4
       else if (isTier2 s).isSome then 2
       else 3))
    ∧ (∀ s : Session, (isTier1 s).isSome = true →
        (classify s).autoTier = 1 ∧
          (s.tierOverride = none → (classify s).tier = 1))
    ∧ (classify emptyHighTurns).tier = 1
    ∧ (classify emptyHighTurns).autoTier = 1 := by
  refine ⟨?_, ?_, by decide, by decide⟩
  · intro s
    unfold classify
    cases h1 : isTier1 s with
    | some rs => simp [applyTier_autoTier, TIER_AUTO_DELETE]
    | none =>
      by_cases h4 : isTier4 s
      · simp [h4, applyTier_autoTier, TIER_KEEP]
      · cases h2 : isTier2 s with
        | some rs => simp [h4, applyTier_autoTier, TIER_SUGGESTED]
        | none => simp [h4, applyTier_autoTier, TIER_REVIEW]
  · intro s hs
    cases h1 : isTier1 s with
    | some rs =>
      constructor
      · unfold classify
        rw [h1]
        exact applyTier_autoTier ..
      · intro hov
        unfold classify
        rw [h1]
        exact applyTier_tier_of_noOverride _ _ _ hov
    | none => rw [h1] at hs; simp at hs

/-- Witness for C6 at the concrete spec example. -/
theorem classify_order_tier1_dominates_witness :
    (isTier1 emptyHighTurns).isSome = true ∧
      (classify emptyHighTurns).autoTier = 1 :=
  ⟨by decide, (classify_order_tier1_dominates.2.1 emptyHighTurns (by decide)).1⟩

/-- A plain KEEP session (turn count 10) carrying a user override of tier 2. -/
def keepWithOverride2 : Session :=
  { turnCount := some 10, tierOverride := some 2 }

/-- C7: the legacy junk score is the pure tier-score mapping applied to the
final (effective) tier: 1 → 1.0, 2 → 0.7, 3 → 0.4, 4 → 0.1; `junkLabel`
returns `junk` iff score ≥ 0.6, `maybe` iff 0.3 ≤ score < 0.6, else `real`;
and an override tier 2 over a computed tier 4 yields tier 2 with autoTier
4. -/
theorem junkScore_pure_function_of_final_tier :
    (∀ s : Session, (classify s).junkScore = TIER_SCORES (classify s).tier)
    ∧ TIER_SCORES 1 = some 1
    ∧ TIER_SCORES 2 = some (7/10)
    ∧ TIER_SCORES 3 = some (2/5)
    ∧ TIER_SCORES 4 = some (1/10)
    ∧ (∀ q : ℚ,
        (junkLabel q = "junk" ↔ 6/10 ≤ q)
        ∧ (junkLabel q = "maybe" ↔ 3/10 ≤ q ∧ q < 6/10)
        ∧ (junkLabel q = "real" ↔ q < 3/10))
    ∧ junkLabel 1 = "junk"
    ∧ junkLabel (2/5) = "maybe"
    ∧ junkLabel (1/10) = "real"
    ∧ (∀ s : Session, s.tierOverride = some 2 → (classify s).autoTier = 4 →
        (classify s).tier = 2 ∧ (classify s).autoTier = 4) := by
  refine ⟨?_, by norm_num [TIER_SCORES], by norm_num [TIER_SCORES],
    by norm_num [TIER_SCORES], by norm_num [TIER_SCORES], ?_,
    by norm_num [junkLabel], by norm_num [junkLabel], by norm_num [junkLabel], ?_⟩
  · intro s
    unfold classify
    cases isTier1 s with
    | some rs => exact applyTier_junkScore_eq_tier ..
    | none =>
      by_cases h4 : isTier4 s
      · simp only [h4, if_true]
        exact applyTier_junkScore_eq_tier ..
      · simp only [h4, if_false]
        cases isTier2 s with
        | some rs => exact applyTier_junkScore_eq_tier ..
        | none => exact applyTier_junkScore_eq_tier ..
  · intro q
    unfold junkLabel
    split_ifs with h1 h2
    · refine ⟨⟨fun _ => h1, fun _ => rfl⟩, ?_, ?_⟩
      · constructor
        · intro h; exact absurd h (by decide)
        · rintro ⟨-, hlt⟩; exact absurd h1 (not_le.mpr hlt)
      · constructor
        · intro h; exact absurd h (by decide)
        · intro hlt; exact absurd h1 (not_le.mpr (hlt.trans (by norm_num)))
    · refine ⟨?_, ⟨fun _ => ⟨h2, not_le.mp h1⟩, fun _ => rfl⟩, ?_⟩
      · constructor
        · intro h; exact absurd h (by decide)
        · intro hle; exact absurd hle h1
      · constructor
        · intro h; exact absurd h (by decide)
        · intro hlt; exact absurd h2 (not_le.mpr hlt)
    · refine ⟨?_, ?_, ⟨fun _ => not_le.mp h2, fun _ => rfl⟩⟩
      · constructor
        · intro h; exact absurd h (by decide)
        · intro hle; exact absurd hle h1
      · constructor
        · intro h; exact absurd h (by decide)
        · rintro ⟨hle, -⟩; exact absurd hle h2
  · intro s hov hauto
    have hc := classify_eq_applyTier s
    rw [hauto] at hc
    refine ⟨?_, hauto⟩
    rw [hc]
    simp [applyTier, hov]

/-- Witness for C7 on a concrete KEEP session with override 2. -/
theorem junkScore_pure_function_of_final_tier_witness :
    (classify keepWithOverride2).tier = 2 ∧
      (classify keepWithOverride2).autoTier = 4 :=
  junkScore_pure_function_of_final_tier.2.2.2.2.2.2.2.2.2
    keepWithOverride2 rfl (by decide)

/-- C8 (amended): classification is a total function and is insensitive to
zero-defaulting the deep-analysis fields (turnCount, totalToolCalls,
thinkingBlocks, uniqueFilesCount), which the code reads through `|| 0`. -/
theorem classify_deep_fields_default_to_zero :
    ∀ s : Session, classify (defaultDeepFields s) = classify s :=
  fun _ => rfl

/-- C8 counterexample: zero-defaulting the *other* absent numeric fields
changes the result — a conversation summary with every numeric field absent
classifies as tier 3, but with those fields replaced by 0 it classifies as
tier 1. -/
theorem classify_zero_default_counterexample :
    (classify { category := some "conversation" }).tier = 3
    ∧ (classify (zeroAllNumeric { category := some "conversation" })).tier = 1
    ∧ classify (zeroAllNumeric { category := some "conversation" }) ≠
        classify { category := some "conversation" } :=
  ⟨by decide, by decide,
    fun h => absurd (congrArg Classified.tier h) (by decide)⟩

/-! ### Language detection (src/lib/analyzer.js, LANG_HINTS / detectLanguage)

Each `LANG_HINTS` regex is a case-insensitive word-boundary alternation of
fixed keywords, matched globally; on whitespace-separated word text the
number of matches is the number of tokens belonging to the keyword list, so
the embedding counts tokens.  JS `text.length` counts UTF-16 units; every
character involved here lies in the BMP, where that agrees with the
code-point count used below. -/

def LANG_HINTS_fr : List String :=
  ["je", "tu", "il", "nous", "vous", "les", "des", "une", "est", "sont",
   "dans", "pour", "avec", "que", "sur", "pas", "fait", "faire", "peut",
   "cette", "mais", "aussi", "comme", "bien", "tout", "très", "plus",
   "moins", "ici", "merci", "bonjour", "salut", "oui", "non", "voici",
   "voilà", "ajoute", "modifie", "supprime", "corrige", "fais", "mets",
   "change", "crée", "regarde"]

def LANG_HINTS_es : List String :=
  ["el", "la", "los", "las", "es", "son", "en", "para", "con", "que",
   "por", "pero", "como", "bien", "todo", "más", "menos", "aquí",
   "gracias", "hola", "sí", "añade", "modifica", "crea", "mira"]

def LANG_HINTS_de : List String :=
  ["der", "die", "das", "ein", "eine", "ist", "sind", "in", "für", "mit",
   "und", "aber", "wie", "gut", "alles", "mehr", "weniger", "hier",
   "danke", "hallo", "ja", "nein"]

def isSpaceChar (c : Char) : Bool :=
  c = ' ' || c = '\t' || c = '\n' || c = '\r'

/-- Split a character stream into whitespace-separated words (the tokens the
word-boundary regexes match against). -/
def splitWordsAux : List Char → List Char → List String
  | [], acc => if acc = [] then [] else [String.mk acc.reverse]
  | c :: cs, acc =>
    if isSpaceChar c then
      if acc = [] then splitWordsAux cs []
      else String.mk acc.reverse :: splitWordsAux cs []
    else splitWordsAux cs (c :: acc)

def lowerStr (s : String) : String := String.mk (s.toList.map Char.toLower)

def jsWords (text : String) : List String := splitWordsAux (lowerStr text).toList []

/-- Number of global, case-insensitive matches of the keyword-alternation
regex of a candidate language against the text. -/
def matchCount (hints : List String) (text : String) : Nat :=
  (jsWords text).countP (fun w => hints.contains w)

/-- `Object.entries(LANG_HINTS)` in insertion order. -/
def langCandidates : List (String × List String) :=
  [("fr", LANG_HINTS_fr), ("es", LANG_HINTS_es), ("de", LANG_HINTS_de)]

/-- `detectLanguage(text)` from src/lib/analyzer.js: default `en`; a
candidate replaces the running best only when its match count strictly
exceeds the best so far and is at least 3; texts shorter than 20 characters
always give `en`. -/
def detectLanguage (text : String) : String :=
  if text.length < 20 then "en"
  else
    (langCandidates.foldl
      (fun best lp =>
        let count := matchCount lp.2 text
        if best.2 < count ∧ 3 ≤ count then (lp.1, count) else best)
      ("en", 0)).1

/-- A tie text: `que` is a keyword of both the French and the Spanish hint
lists, so both candidates count 6 matches. -/
def tieText : String := "que que que que que que"

/-- C9 (amended): the guess is `en` for texts under 20 characters and when
no candidate reaches 3 matches; a candidate whose count reaches 3 and is not
beaten by a later candidate wins, with ties resolved toward the earlier
candidate in the fixed order fr, es, de (not toward `en`). -/
theorem detectLanguage_selection :
    (∀ text : String, text.length < 20 → detectLanguage text = "en")
    ∧ (∀ text : String, 20 ≤ text.length →
        matchCount LANG_HINTS_fr text < 3 →
        matchCount LANG_HINTS_es text < 3 →
        matchCount LANG_HINTS_de text < 3 →
        detectLanguage text = "en")
    ∧ (∀ text : String, 20 ≤ text.length →
        3 ≤ matchCount LANG_HINTS_fr text →
        matchCount LANG_HINTS_es text ≤ matchCount LANG_HINTS_fr text →
        matchCount LANG_HINTS_de text ≤ matchCount LANG_HINTS_fr text →
        detectLanguage text = "fr")
    ∧ (∀ text : String, 20 ≤ text.length →
        3 ≤ matchCount LANG_HINTS_es text →
        matchCount LANG_HINTS_fr text < matchCount LANG_HINTS_es text →
        matchCount LANG_HINTS_de text ≤ matchCount LANG_HINTS_es text →
        detectLanguage text = "es")
    ∧ (∀ text : String, 20 ≤ text.length →
        3 ≤ matchCount LANG_HINTS_de text →
        matchCount LANG_HINTS_fr text < matchCount LANG_HINTS_de text →
        matchCount LANG_HINTS_es text < matchCount LANG_HINTS_de text →
        detectLanguage text = "de") := by
  have hrun : ∀ text : String, 20 ≤ text.length →
      detectLanguage text =
        (let cf := matchCount LANG_HINTS_fr text
         let ce := matchCount LANG_HINTS_es text
         let cd := matchCount LANG_HINTS_de text
         let b1 := if (0 : Nat) < cf ∧ 3 ≤ cf then ("fr", cf) else ("en", 0)
         let b2 := if b1.2 < ce ∧ 3 ≤ ce then ("es", ce) else b1
         let b3 := if b2.2 < cd ∧ 3 ≤ cd then ("de", cd) else b2
         b3.1) := by
    intro text h20
    unfold detectLanguage
    rw [if_neg (by omega)]
    rfl
  refine ⟨?_, ?_, ?_, ?_, ?_⟩
  · intro text h20
    unfold detectLanguage
    rw [if_pos h20]
  · intro text h20 h1 h2 h3
    rw [hrun text h20]
    simp only
    split_ifs <;> first | rfl | omega
  · intro text h20 h1 h2 h3
    rw [hrun text h20]
    simp only
    split_ifs <;> first | rfl | omega
  · intro text h20 h1 h2 h3
    rw [hrun text h20]
    simp only
    split_ifs <;> first | rfl | omega
  · intro text h20 h1 h2 h3
    rw [hrun text h20]
    simp only
    split_ifs <;> first | rfl | omega

/-- Witness for C9 at the tie text (fr wins the tie). -/
theorem detectLanguage_selection_witness :
    detectLanguage tieText = "fr" :=
  detectLanguage_selection.2.2.1 tieText (by decide) (by decide)
    (by decide) (by decide)

/-- C9 counterexample: both fr and es count 6 ≥ 3 matches on `tieText`
(so no candidate is strictly ahead of every other), the text is 23
characters long, yet the code returns `fr`, not the claimed default
`en`. -/
theorem detectLanguage_tie_counterexample :
    matchCount LANG_HINTS_fr tieText = 6
    ∧ matchCount LANG_HINTS_es tieText = 6
    ∧ matchCount LANG_HINTS_de tieText = 0
    ∧ 20 ≤ tieText.length
    ∧ detectLanguage tieText = "fr" := by
  refine ⟨by decide, by decide, by decide, by decide, by decide⟩

/-! ### Head+tail line reader (src/lib/scanner.js, readHeadTail / fastScan) -/

/-- One iteration of the `for await (const line of rl)` loop of
`readHeadTail`: lines up to `headCount` go to `lines`, the rest flow through
the sliding `tailBuffer` (push, then shift when over `tailCount`). -/
def htStep (headCount tailCount : Nat)
    (st : Nat × List String × List String) (line : String) :
    Nat × List String × List String :=
  let lineNum := st.1 + 1
  if lineNum ≤ headCount then
    (lineNum, st.2.1 ++ [line], st.2.2)
  else
    let tb1 := st.2.2 ++ [line]
    let tb2 := if tailCount < tb1.length then tb1.drop 1 else tb1
    (lineNum, st.2.1, tb2)

/-- `readHeadTail(filePath, headCount, tailCount)` on the file's line list:
after the loop, tail lines already present in the head set are skipped. -/
def readHeadTail (ls : List String) (headCount tailCount : Nat) : List String :=
  let r := ls.foldl (htStep headCount tailCount) (0, [], [])
  r.2.1 ++ r.2.2.filter (fun tl => !(r.2.1.contains tl))

/-- The last `n` elements of a list. -/
def lastN (n : Nat) (xs : List α) : List α := xs.drop (xs.length - n)

/-- `fastScan`'s `totalRecordCount`: the lines returned by
`readHeadTail(filePath, 30, 10)` are JSON-parsed one by one, unparsable
lines skipped, and the summary's `totalRecordCount` is `records.length`. -/
def fastScanTotalRecordCount (parse : String → Option α) (ls : List String) : Nat :=
  ((readHeadTail ls 30 10).filterMap parse).length

/-- 31 pairwise-distinct head lines except that the final (tail) line
repeats the first line verbatim. -/
def dupTailLines : List String :=
  (List.range 30).map (fun i => "line" ++ toString i) ++ ["line0"]

lemma lastN_append_left (n : Nat) (xs ys : List α) (h : n ≤ ys.length) :
    lastN n (xs ++ ys) = lastN n ys := by
  unfold lastN
  rw [List.length_append,
    show xs.length + ys.length - n = xs.length + (ys.length - n) by omega,
    List.drop_append]

lemma lastN_lastN_append (n : Nat) (xs ys : List α) :
    lastN n (lastN n xs ++ ys) = lastN n (xs ++ ys) := by
  rcases le_or_lt n ys.length with h | h
  · rw [lastN_append_left n _ ys h, lastN_append_left n _ ys h]
  · rcases le_or_lt xs.length n with h2 | h2
    · unfold lastN
      rw [Nat.sub_eq_zero_of_le h2, List.drop_zero]
    · have hlen : (List.drop (xs.length - n) xs).length = n := by
        rw [List.length_drop]; omega
      show List.drop ((List.drop (xs.length - n) xs ++ ys).length - n)
            (List.drop (xs.length - n) xs ++ ys) =
          List.drop ((xs ++ ys).length - n) (xs ++ ys)
      rw [List.length_append, List.length_append, hlen,
        show n + ys.length - n = ys.length by omega]
      rw [List.drop_append_of_le_length (by rw [hlen]; omega),
        List.drop_drop,
        List.drop_append_of_le_length (by omega),
        show xs.length - n + ys.length = xs.length + ys.length - n by omega]

/-- Loop invariant of `readHeadTail`: starting at line number `k` with an
accumulated head and a tail buffer no longer than `tailCount`, the fold
extends the head with the next `headCount - k` lines and keeps the last
`tailCount` of the remainder in the buffer. -/
lemma htFold_spec (hc tc : Nat) (ls : List String) :
    ∀ (k : Nat) (lines tb : List String), tb.length ≤ tc →
      ls.foldl (htStep hc tc) (k, lines, tb) =
        (k + ls.length, lines ++ ls.take (hc - k),
          lastN tc (tb ++ ls.drop (hc - k))) := by
  induction ls with
  | nil =>
    intro k lines tb htb
    simp [lastN, Nat.sub_eq_zero_of_le htb]
  | cons l rest ih =>
    intro k lines tb htb
    rw [List.foldl_cons]
    by_cases hk : k + 1 ≤ hc
    · have hstep : htStep hc tc (k, lines, tb) l = (k + 1, lines ++ [l], tb) := by
        simp only [htStep]
        rw [if_pos hk]
      rw [hstep, ih (k + 1) (lines ++ [l]) tb htb]
      rw [show hc - k = (hc - (k + 1)) + 1 by omega]
      simp only [Prod.mk.injEq, List.take_succ_cons, List.drop_succ_cons]
      refine ⟨by simp only [List.length_cons]; omega, by simp, by trivial⟩
    · have htb2 : (if tc < (tb ++ [l]).length then (tb ++ [l]).drop 1
          else tb ++ [l]).length ≤ tc := by
        by_cases h : tc < (tb ++ [l]).length
        · rw [if_pos h]
          simp only [List.length_drop, List.length_append, List.length_singleton] at h ⊢
          omega
        · rw [if_neg h]
          simp only [List.length_append, List.length_singleton] at h ⊢
          omega
      have hstep : htStep hc tc (k, lines, tb) l =
          (k + 1, lines,
            if tc < (tb ++ [l]).length then (tb ++ [l]).drop 1 else tb ++ [l]) := by
        simp only [htStep]
        rw [if_neg hk]
      rw [hstep, ih (k + 1) lines _ htb2]
      rw [show hc - k = 0 by omega, show hc - (k + 1) = 0 by omega]
      simp only [Prod.mk.injEq, List.take_zero, List.drop_zero]
      refine ⟨by simp only [List.length_cons]; omega, by trivial, ?_⟩
      have hbuf : (if tc < (tb ++ [l]).length then (tb ++ [l]).drop 1
          else tb ++ [l]) = lastN tc (tb ++ [l]) := by
        by_cases h : tc < (tb ++ [l]).length
        · rw [if_pos h]
          unfold lastN
          rw [show (tb ++ [l]).length - tc = 1 by
            simp only [List.length_append, List.length_singleton]
            simp only [List.length_append, List.length_singleton] at h
            omega]
        · rw [if_neg h]
          unfold lastN
          rw [show (tb ++ [l]).length - tc = 0 by
            simp only [List.length_append, List.length_singleton]
            simp only [List.length_append, List.length_singleton] at h
            omega, List.drop_zero]
      rw [hbuf, lastN_lastN_append]
      rw [List.append_assoc]
      rfl

/-- The final state of the `readHeadTail` loop on a whole file. -/
lemma readHeadTail_eq (ls : List String) (hc tc : Nat) :
    readHeadTail ls hc tc =
      ls.take hc ++
        (lastN tc (ls.drop hc)).filter (fun tl => !((ls.take hc).contains tl)) := by
  unfold readHeadTail
  rw [htFold_spec hc tc ls 0 [] [] (by simp)]
  simp

/-- Filtering head members out of the tail window makes "last `tc` of the
remainder" and "last `tc` of the whole file" coincide. -/
lemma lastN_drop_filter (ls : List String) (hc tc : Nat) :
    (lastN tc (ls.drop hc)).filter (fun tl => !((ls.take hc).contains tl)) =
      (lastN tc ls).filter (fun tl => !((ls.take hc).contains tl)) := by
  rcases le_or_lt tc (ls.drop hc).length with h | h
  · have : lastN tc ls = lastN tc (ls.drop hc) := by
      conv_lhs => rw [← List.take_append_drop hc ls]
      rw [lastN_append_left tc _ _ h]
    rw [this]
  · have hlen : (ls.drop hc).length = ls.length - hc := List.length_drop ..
    have hdec : lastN tc ls =
        (ls.take hc).drop ((ls.take hc).length + (ls.drop hc).length - tc) ++ ls.drop hc := by
      conv_lhs => rw [← List.take_append_drop hc ls]
      unfold lastN
      rw [List.length_append]
      exact List.drop_append_of_le_length (by omega)
    rw [hdec, List.filter_append]
    have hnil : ((ls.take hc).drop ((ls.take hc).length + (ls.drop hc).length - tc)).filter
        (fun tl => !((ls.take hc).contains tl)) = [] := by
      rw [List.filter_eq_nil_iff]
      intro a ha
      have : a ∈ ls.take hc := List.mem_of_mem_drop ha
      simp [this]
    rw [hnil, List.nil_append]
    have : lastN tc (ls.drop hc) = ls.drop hc := by
      unfold lastN
      rw [show (ls.drop hc).length - tc = 0 by omega, List.drop_zero]
    rw [this]

/-- C10: in fast mode the reader returns the first 30 lines plus only the
tail lines not byte-identical to a head line; a tail line equal to a head
line never adds an occurrence, and on a 31-line file whose last line repeats
the first, `fastScan` counts 30 records for 31 lines read. -/
theorem readHeadTail_drops_duplicate_tail_lines :
    (∀ ls : List String,
        readHeadTail ls 30 10 =
          ls.take 30 ++
            (lastN 10 ls).filter (fun tl => !((ls.take 30).contains tl)))
    ∧ (∀ (ls : List String) (l : String), l ∈ ls.take 30 →
        (readHeadTail ls 30 10).count l = (ls.take 30).count l)
    ∧ dupTailLines.length = 31
    ∧ fastScanTotalRecordCount (fun l => some l) dupTailLines = 30 := by
  refine ⟨?_, ?_, by decide, by decide⟩
  · intro ls
    rw [readHeadTail_eq, lastN_drop_filter]
  · intro ls l hl
    rw [readHeadTail_eq, lastN_drop_filter, List.count_append]
    have : ((lastN 10 ls).filter (fun tl => !((ls.take 30).contains tl))).count l = 0 := by
      rw [List.count_eq_zero]
      intro hmem
      have := List.of_mem_filter hmem
      simp [hl] at this
    rw [this]
    omega

/-- Witness for C10: the duplicated line appears once in the head of the
31-line example, and once (not twice) in the reader's output. -/
theorem readHeadTail_drops_duplicate_tail_lines_witness :
    "line0" ∈ dupTailLines.take 30 ∧
      (readHeadTail dupTailLines 30 10).count "line0" =
        (dupTailLines.take 30).count "line0" :=
  ⟨by decide,
    readHeadTail_drops_duplicate_tail_lines.2.1 dupTailLines "line0" (by decide)⟩

/-! ### The scan cache (cache module: getCached / setCached)

The persisted cache maps a file-path string to `{mtime, size, data}`; the
live file system is modelled as a partial map from path to the `stat`
result (`none` when `stat` throws because the file vanished).  `getCached`
takes and returns the in-memory cache, since its only mutation is the
`delete cache.sessions[filePath]` in the `stat` failure branch. -/

/-- The fields of a `stat` result the cache compares against. -/
structure FileInfo where
  mtimeMs : Nat
  size : Nat
  deriving DecidableEq, Repr

/-- A cached summary: opaque payload plus the `analyzed` flag that
`requireAnalyzed` inspects. -/
structure CData where
  analyzed : Bool
  payload : String
  deriving DecidableEq, Repr

/-- One cache entry: the mtime and size recorded at `put` time plus the
cached summary. -/
structure CEntry where
  mtime : Nat
  size : Nat
  data : CData
  deriving DecidableEq, Repr

/-- The in-memory cache (`memoryCache.sessions`). -/
structure Cache where
  sessions : String → Option CEntry

/-- `isValid(entry, fileInfo)`: strict equality of both mtime and size. -/
def isValid (entry : CEntry) (fileInfo : FileInfo) : Bool :=
  entry.mtime = fileInfo.mtimeMs && entry.size = fileInfo.size

/-- `getCached(filePath, {requireAnalyzed})`: returns the cached summary and
the possibly-updated cache. -/
def getCached (filePath : String) (requireAnalyzed : Bool) (cache : Cache)
    (fsys : String → Option FileInfo) : Option CData × Cache :=
  match cache.sessions filePath with
  | none => (none, cache)
  | some entry =>
    if requireAnalyzed && !entry.data.analyzed then (none, cache)
    else
      match fsys filePath with
      | some fileInfo =>
        if isValid entry fileInfo then (some entry.data, cache)
        else (none, cache)
      | none =>
        (none, ⟨fun p => if p = filePath then none else cache.sessions p⟩)

/-- `setCached(filePath, data)`: stat the file and record its identity with
the summary; a stat failure leaves the cache unchanged. -/
def setCached (filePath : String) (data : CData) (cache : Cache)
    (fsys : String → Option FileInfo) : Cache :=
  match fsys filePath with
  | some fileInfo =>
    ⟨fun p => if p = filePath then
        some { mtime := fileInfo.mtimeMs, size := fileInfo.size, data := data }
      else cache.sessions p⟩
  | none => cache

/-- C4 (amended): `get` after a `put` with unchanged (mtime, size) returns
the stored summary; a `stat` failure during `get` returns absent and removes
the entry; but a mtime or size *mismatch* returns absent while leaving the
entry in the cache (only the vanished-file branch deletes). -/
theorem getCached_validity :
    (∀ (cache : Cache) (fsys : String → Option FileInfo) (p : String)
        (d : CData) (fi : FileInfo), fsys p = some fi →
        (getCached p false (setCached p d cache fsys) fsys).1 = some d)
    ∧ (∀ (cache : Cache) (fsys : String → Option FileInfo) (p : String)
        (e : CEntry) (fi : FileInfo),
        cache.sessions p = some e → fsys p = some fi →
        isValid e fi = false →
        getCached p false cache fsys = (none, cache))
    ∧ (∀ (cache : Cache) (fsys : String → Option FileInfo) (p : String)
        (e : CEntry),
        cache.sessions p = some e → fsys p = none →
        (getCached p false cache fsys).1 = none ∧
          ((getCached p false cache fsys).2).sessions p = none) := by
  refine ⟨?_, ?_, ?_⟩
  · intro cache fsys p d fi hfs
    simp [getCached, setCached, hfs, isValid]
  · intro cache fsys p e fi hc hfs hv
    simp [getCached, hc, hfs, hv]
  · intro cache fsys p e hc hfs
    simp [getCached, hc, hfs]

/-- C4 counterexample: with a recorded mtime 1 and a live mtime 2 the entry
is stale — `get` returns absent but the whole cache, entry included, is
returned unchanged rather than with the entry removed. -/
theorem getCached_mismatch_keeps_entry :
    (getCached "p" false
        ⟨fun q => if q = "p" then
            some { mtime := 1, size := 1, data := { analyzed := true, payload := "s" } }
          else none⟩
        (fun q => if q = "p" then some { mtimeMs := 2, size := 1 } else none)).1 = none
    ∧ ((getCached "p" false
        ⟨fun q => if q = "p" then
            some { mtime := 1, size := 1, data := { analyzed := true, payload := "s" } }
          else none⟩
        (fun q => if q = "p" then some { mtimeMs := 2, size := 1 } else none)).2).sessions "p" =
      some { mtime := 1, size := 1, data := { analyzed := true, payload := "s" } } := by
  refine ⟨by decide, by decide⟩

/-- Witness for C4 instantiating the put-get round trip at a concrete file
system. -/
theorem getCached_validity_witness :
    (fun (_ : String) => some { mtimeMs := 5, size := 7 : FileInfo }) "p" =
        some { mtimeMs := 5, size := 7 : FileInfo }
    ∧ (getCached "p" false
        (setCached "p" { analyzed := false, payload := "sum" } ⟨fun _ => none⟩
          (fun _ => some { mtimeMs := 5, size := 7 }))
        (fun _ => some { mtimeMs := 5, size := 7 })).1 =
      some { analyzed := false, payload := "sum" } :=
  ⟨rfl,
    getCached_validity.1 ⟨fun _ => none⟩ (fun _ => some { mtimeMs := 5, size := 7 })
      "p" { analyzed := false, payload := "sum" } { mtimeMs := 5, size := 7 } rfl⟩

/-! ### Trash / restore (src/lib/cleanup.js)

Paths are modelled structurally as their component lists; `join`, `basename`,
`dirname`, `relative` and `resolve` from node:path act on components.  The
file system is a pair of partial maps: regular files (path to byte content)
and companion directories (path to an opaque content tag; a directory moves
wholesale under `rename`).  `mkdir` with `recursive: true` never fails and
plain directory existence is not tracked.  The manifest is the parsed
content of the trash-manifest file; `saveManifest`'s `writeFile` is the one
fallible persistence step, modelled by the `writeOk` parameter. -/

/-- An absolute filesystem path as its list of components. -/
abbrev FsPath := List String

/-- `PROJECTS_DIR` from src/lib/utils.js (`~/.claude/projects`). -/
def PROJECTS_DIR : FsPath := ["home", ".claude", "projects"]

/-- `TRASH_DIR` from src/lib/utils.js (`~/.claude/tools/csesh/trash`). -/
def TRASH_DIR : FsPath := ["home", ".claude", "tools", "csesh", "trash"]

/-- `path.join(dir, name)`. -/
def pjoin (dir : FsPath) (name : String) : FsPath := dir ++ [name]

/-- `path.basename(p)`. -/
def pbasename (p : FsPath) : String := p.getLast?.getD ""

def commonPrefixLen : FsPath → FsPath → Nat
  | a :: as, b :: bs => if a = b then commonPrefixLen as bs + 1 else 0
  | _, _ => 0

/-- `path.relative(base, target)` on absolute component paths: up-steps out
of the non-shared part of `base`, then down into `target`. -/
def prelative (base target : FsPath) : FsPath :=
  let k := commonPrefixLen base target
  List.replicate (base.length - k) ".." ++ target.drop k

def presolveAux : FsPath → FsPath → FsPath
  | acc, [] => acc
  | acc, c :: rest =>
    if c = ".." then presolveAux acc.dropLast rest
    else presolveAux (acc ++ [c]) rest

/-- `path.resolve(base, rel)`: append and normalize `..` components. -/
def presolve (base rel : FsPath) : FsPath := presolveAux base rel

/-- A manifest `originalPath` value: legacy absolute or new root-relative. -/
inductive StoredPath where
  | abs (p : FsPath)
  | rel (p : FsPath)
  deriving DecidableEq, Repr

/-- `resolveOriginalPath(storedPath)`: absolute values pass through, relative
ones resolve against `PROJECTS_DIR`. -/
def resolveOriginalPath : StoredPath → FsPath
  | .abs p => p
  | .rel r => presolve PROJECTS_DIR r

/-- Remove the first occurrence of `.jsonl` from a name
(JS `String.prototype.replace` with a string pattern). -/
def stripFirstJsonl : List Char → List Char
  | [] => []
  | c :: rest =>
    if (c :: rest).take 6 = ".jsonl".toList then rest.drop 5
    else c :: stripFirstJsonl rest

def stripJsonlName (s : String) : String := ⟨stripFirstJsonl s.toList⟩

/-- `p.replace('.jsonl', '')` for a path whose directory components do not
contain `.jsonl` (true of `PROJECTS_DIR` and `TRASH_DIR` trees): the first
occurrence sits in the basename. -/
def companionOf (p : FsPath) : FsPath :=
  p.dropLast ++ [stripJsonlName (pbasename p)]

/-- The file system: regular files and companion directories. -/
@[ext]
structure FS where
  files : FsPath → Option String
  dirs : FsPath → Option String

/-- Errors surfaced by the cleanup module. -/
inductive Err where
  | renameNoSrc
  | renameDirFail
  | unlinkNoEnt
  | writeFailed
  | notFound (id : String)
  deriving DecidableEq, Repr

/-- `fs.rename` on a regular file: fails when the source is missing,
silently replaces an existing target (POSIX overwrite). -/
def FS.rename (fs : FS) (src tgt : FsPath) : Except Err FS :=
  match fs.files src with
  | none => .error .renameNoSrc
  | some c =>
    .ok { fs with files := fun p => if p = tgt then some c
                    else if p = src then none else fs.files p }

/-- `fs.rename` on a directory: fails when the source is missing or a
directory already occupies the target (ENOTEMPTY). -/
def FS.renameDir (fs : FS) (src tgt : FsPath) : Except Err FS :=
  match fs.dirs src with
  | none => .error .renameNoSrc
  | some c =>
    if (fs.dirs tgt).isSome then .error .renameDirFail
    else .ok { fs with dirs := fun p => if p = tgt then some c
                    else if p = src then none else fs.dirs p }

/-- `stat(p)` followed by `.isDirectory()` under a try/catch: true exactly
when a directory exists at `p`. -/
def FS.statIsDir (fs : FS) (p : FsPath) : Bool := (fs.dirs p).isSome

/-- `unlink(p)`: fails when no file exists at `p`. -/
def FS.unlink (fs : FS) (p : FsPath) : Except Err FS :=
  match fs.files p with
  | none => .error .unlinkNoEnt
  | some _ => .ok { fs with files := fun q => if q = p then none else fs.files q }

/-- `rm(p, {recursive: true, force: true})` on a directory. -/
def FS.rmDir (fs : FS) (p : FsPath) : FS :=
  { fs with dirs := fun q => if q = p then none else fs.dirs q }

/-- `try { await unlink(p) } catch { /* already gone */ }`. -/
def tryUnlink (fs : FS) (p : FsPath) : FS :=
  match fs.unlink p with
  | .ok fsx => fsx
  | .error _ => fs

/-- The `try { stat; if isDirectory rename } catch {}` companion-move block
shared by `trashSession` and `restoreSession`. -/
def moveCompanion (fs : FS) (src tgt : FsPath) : FS :=
  if fs.statIsDir src then
    match fs.renameDir src tgt with
    | .ok fsx => fsx
    | .error _ => fs
  else fs

/-- The session fields `trashSession` reads. -/
structure Sess where
  id : String
  filePath : FsPath
  junkScore : Option ℚ := none
  junkReasons : List String := []
  fileSizeBytes : Option Nat := none
  title : Option String := none
  shortProject : Option String := none
  deriving DecidableEq, Repr

/-- One trash-manifest entry. -/
structure TrashItem where
  id : String
  originalPath : StoredPath
  trashPath : FsPath
  trashedAt : Nat
  reason : String
  junkScore : Option ℚ
  junkReasons : List String
  fileSizeBytes : Option Nat
  title : Option String
  project : Option String
  deriving DecidableEq, Repr

/-- The persistent state the cleanup module manipulates: the file tree and
the parsed trash manifest (an unreadable manifest file parses to an empty
item list before any operation, so the manifest is always available). -/
@[ext]
structure TrashState where
  fs : FS
  manifest : List TrashItem

/-- `s.startsWith(pre)`. -/
def jsStartsWith (s pre : String) : Bool :=
  startsWithChars pre.toList s.toList
where
  startsWithChars : List Char → List Char → Bool
    | [], _ => true
    | _, [] => false
    | a :: as, b :: bs => a = b && startsWithChars as bs

/-- `Array.prototype.findIndex` followed by `splice(idx, 1)`, as the triple
(items before the first match, the match, items after). -/
def findSplit (p : α → Bool) : List α → Option (List α × α × List α)
  | [] => none
  | x :: xs =>
    if p x then some ([], x, xs)
    else
      match findSplit p xs with
      | none => none
      | some (b, y, a) => some (x :: b, y, a)

/-- The manifest entry `trashSession` pushes. -/
def mkTrashItem (s : Sess) (reason : String) (now : Nat) (trashPath : FsPath) :
    TrashItem :=
  { id := s.id
    originalPath := .rel (prelative PROJECTS_DIR s.filePath)
    trashPath := trashPath
    trashedAt := now
    reason := reason
    junkScore := s.junkScore
    junkReasons := s.junkReasons
    fileSizeBytes := s.fileSizeBytes
    title := s.title
    project := s.shortProject }

/-- `trashSession(session, reason)`: move the file into the trash area, move
the companion directory if present (errors swallowed), then append the
manifest entry and persist.  The returned state reflects every side effect
performed before an error was thrown. -/
def trashSession (writeOk : Bool) (now : Nat) (s : Sess) (reason : String)
    (st : TrashState) : Except Err (String × FsPath) × TrashState :=
  let fileName := pbasename s.filePath
  let trashPath := pjoin TRASH_DIR fileName
  match st.fs.rename s.filePath trashPath with
  | .error e => (.error e, st)
  | .ok fs1 =>
    let companionDir := companionOf s.filePath
    let fs2 := moveCompanion fs1 companionDir
      (pjoin TRASH_DIR (pbasename companionDir))
    let item := mkTrashItem s reason now trashPath
    if writeOk then
      (.ok (s.id, trashPath), { fs := fs2, manifest := st.manifest ++ [item] })
    else
      (.error .writeFailed, { st with fs := fs2 })

/-- `restoreSession(id)`: exact-id lookup, recreate the original directory
(untracked), move the file back, move the companion back (errors swallowed),
remove the manifest entry, persist. -/
def restoreSession (writeOk : Bool) (id : String) (st : TrashState) :
    Except Err (String × FsPath) × TrashState :=
  match findSplit (fun i => i.id == id) st.manifest with
  | none => (.error (.notFound id), st)
  | some (before, item, after) =>
    let originalPath := resolveOriginalPath item.originalPath
    match st.fs.rename item.trashPath originalPath with
    | .error e => (.error e, st)
    | .ok fs1 =>
      let companionTrash := companionOf item.trashPath
      let companionOriginal := companionOf originalPath
      let fs2 := moveCompanion fs1 companionTrash companionOriginal
      if writeOk then
        (.ok (id, originalPath), { fs := fs2, manifest := before ++ after })
      else
        (.error .writeFailed, { st with fs := fs2 })

/-- `deleteFromTrash(id)`: exact-or-prefix lookup (first match), best-effort
unlink of the trashed file, best-effort removal of the companion directory,
remove the manifest entry, persist. -/
def deleteFromTrash (writeOk : Bool) (id : String) (st : TrashState) :
    Except Err (String × Bool) × TrashState :=
  match findSplit (fun i => i.id == id || jsStartsWith i.id id) st.manifest with
  | none => (.error (.notFound id), st)
  | some (before, item, after) =>
    let fs1 := tryUnlink st.fs item.trashPath
    let companion := companionOf item.trashPath
    let fs2 := if fs1.statIsDir companion then fs1.rmDir companion else fs1
    if writeOk then
      (.ok (item.id, true), { fs := fs2, manifest := before ++ after })
    else
      (.error .writeFailed, { st with fs := fs2 })

/-! #### Path lemmas -/

lemma commonPrefixLen_le_left : ∀ a b : FsPath, commonPrefixLen a b ≤ a.length
  | [], _ => by simp [commonPrefixLen]
  | _ :: _, [] => by simp [commonPrefixLen]
  | x :: xs, y :: ys => by
    unfold commonPrefixLen
    by_cases h : x = y
    · rw [if_pos h]
      simpa using commonPrefixLen_le_left xs ys
    · rw [if_neg h]
      simp

lemma take_commonPrefixLen_eq : ∀ a b : FsPath,
    a.take (commonPrefixLen a b) = b.take (commonPrefixLen a b)
  | [], _ => by simp [commonPrefixLen]
  | _ :: _, [] => by simp [commonPrefixLen]
  | x :: xs, y :: ys => by
    unfold commonPrefixLen
    by_cases h : x = y
    · rw [if_pos h]
      simp only [List.take_succ_cons, h]
      rw [take_commonPrefixLen_eq xs ys]
    · rw [if_neg h]
      simp

lemma presolveAux_no_updirs : ∀ (rest acc : FsPath), ".." ∉ rest →
    presolveAux acc rest = acc ++ rest
  | [], acc, _ => by simp [presolveAux]
  | c :: rest, acc, h => by
    have hc : c ≠ ".." := fun hcc => h (hcc ▸ List.mem_cons_self c rest)
    unfold presolveAux
    rw [if_neg hc,
      presolveAux_no_updirs rest (acc ++ [c]) (fun hm => h (List.mem_cons_of_mem c hm))]
    simp

lemma presolveAux_replicate_updirs : ∀ (n : Nat) (acc rest : FsPath),
    presolveAux acc (List.replicate n ".." ++ rest) =
      presolveAux (acc.take (acc.length - n)) rest
  | 0, acc, rest => by simp
  | n + 1, acc, rest => by
    rw [List.replicate_succ, List.cons_append]
    have hstep : presolveAux acc (".." :: (List.replicate n ".." ++ rest)) =
        presolveAux acc.dropLast (List.replicate n ".." ++ rest) := by
      rw [presolveAux, if_pos rfl]
    rw [hstep, presolveAux_replicate_updirs n acc.dropLast rest]
    have hX : acc.dropLast.take (acc.dropLast.length - n) =
        acc.take (acc.length - (n + 1)) := by
      rw [List.length_dropLast, List.dropLast_eq_take, List.take_take]
      have hm : (acc.length - 1 - n) ⊓ (acc.length - 1) = acc.length - (n + 1) := by
        rw [inf_eq_min, Nat.min_def]
        split_ifs <;> omega
      rw [hm]
    rw [hX]

/-- Resolving the stored root-relative path recovers the original absolute
path, for any target free of literal `..` components. -/
lemma presolve_prelative (base target : FsPath) (hd : ".." ∉ target) :
    presolve base (prelative base target) = target := by
  unfold presolve prelative
  rw [presolveAux_replicate_updirs]
  rw [show base.length - (base.length - commonPrefixLen base target) =
      commonPrefixLen base target by
    have := commonPrefixLen_le_left base target
    omega]
  rw [presolveAux_no_updirs _ _ (fun hm => hd (List.mem_of_mem_drop hm))]
  rw [take_commonPrefixLen_eq]
  exact List.take_append_drop _ _

lemma pbasename_companionOf (p : FsPath) :
    pbasename (companionOf p) = stripJsonlName (pbasename p) := by
  unfold companionOf pbasename
  rw [List.getLast?_concat]
  rfl

/-! #### File-system step lemmas -/

/-- The file map after a successful overwriting move. -/
def overwriteMove (F : FsPath → Option String) (src tgt : FsPath) (c : String) :
    FsPath → Option String :=
  fun p => if p = tgt then some c else if p = src then none else F p

/-- The directory map after the guarded companion move: moved only when the
source directory exists and no directory occupies the target. -/
def moveDirs (d : FsPath → Option String) (src tgt : FsPath) :
    FsPath → Option String :=
  match d src with
  | none => d
  | some x =>
    if (d tgt).isSome then d
    else fun p => if p = tgt then some x else if p = src then none else d p

lemma moveDirs_none (d : FsPath → Option String) (src tgt : FsPath)
    (h : d src = none) : moveDirs d src tgt = d := by
  unfold moveDirs
  rw [h]

lemma moveDirs_occupied (d : FsPath → Option String) (src tgt : FsPath)
    (x : String) (h1 : d src = some x) (h2 : (d tgt).isSome = true) :
    moveDirs d src tgt = d := by
  unfold moveDirs
  rw [h1]
  show (if (d tgt).isSome = true then d else _) = d
  rw [if_pos h2]

lemma moveDirs_moved (d : FsPath → Option String) (src tgt : FsPath)
    (x : String) (h1 : d src = some x) (h2 : d tgt = none) :
    moveDirs d src tgt =
      fun p => if p = tgt then some x else if p = src then none else d p := by
  unfold moveDirs
  rw [h1]
  show (if (d tgt).isSome = true then d else _) = _
  rw [if_neg (by simp [h2])]

lemma rename_ok (fs : FS) (src tgt : FsPath) (c : String)
    (h : fs.files src = some c) :
    fs.rename src tgt = .ok ⟨overwriteMove fs.files src tgt c, fs.dirs⟩ := by
  unfold FS.rename
  rw [h]
  rfl

lemma moveCompanion_eq (fs : FS) (src tgt : FsPath) :
    moveCompanion fs src tgt = ⟨fs.files, moveDirs fs.dirs src tgt⟩ := by
  unfold moveCompanion FS.statIsDir FS.renameDir
  cases h : fs.dirs src with
  | none =>
    rw [if_neg (by simp [h]), moveDirs_none fs.dirs src tgt h]
  | some x =>
    rw [if_pos (by simp [h])]
    show (match (if (fs.dirs tgt).isSome = true then Except.error Err.renameDirFail
        else Except.ok { fs with dirs := fun p => if p = tgt then some x
          else if p = src then none else fs.dirs p }) with
      | .ok fsx => fsx
      | .error _ => fs) = _
    cases h2 : fs.dirs tgt with
    | none =>
      rw [if_neg (by simp [h2]), moveDirs_moved fs.dirs src tgt x h h2]
    | some y =>
      rw [if_pos (by simp [h2]), moveDirs_occupied fs.dirs src tgt x h (by simp [h2])]

/-! #### findSplit lemmas -/

lemma findSplit_eq_none (p : α → Bool) :
    ∀ l : List α, (∀ x ∈ l, p x = false) → findSplit p l = none
  | [], _ => rfl
  | x :: xs, h => by
    unfold findSplit
    rw [if_neg (by simp [h x (List.mem_cons_self x xs)])]
    rw [findSplit_eq_none p xs (fun y hy => h y (List.mem_cons_of_mem x hy))]

lemma findSplit_append_singleton (p : α → Bool) :
    ∀ (l : List α) (x : α), (∀ y ∈ l, p y = false) → p x = true →
      findSplit p (l ++ [x]) = some (l, x, [])
  | [], x, _, hx => by
    rw [List.nil_append]
    unfold findSplit
    rw [if_pos hx]
  | a :: l, x, hl, hx => by
    rw [List.cons_append]
    unfold findSplit
    rw [if_neg (by simp [hl a (List.mem_cons_self a l)])]
    rw [findSplit_append_singleton p l x
      (fun y hy => hl y (List.mem_cons_of_mem a hy)) hx]

/-! #### Round-trip algebra on the file and directory maps -/

/-- The file map after moving a file `a` to `b` and back. -/
def fileRoundForm (F : FsPath → Option String) (a b : FsPath) (c : String) :
    FsPath → Option String :=
  fun p => if p = a then some c else if p = b then none else F p

lemma overwriteMove_pair (F : FsPath → Option String) (a b : FsPath) (c : String) :
    overwriteMove (overwriteMove F a b c) b a c = fileRoundForm F a b c := by
  funext p
  unfold overwriteMove fileRoundForm
  by_cases h1 : p = a
  · simp only [if_pos h1]
  · by_cases h2 : p = b
    · simp only [if_neg h1, if_pos h2]
    · simp only [if_neg h1, if_neg h2]

lemma fileRoundForm_idem (F : FsPath → Option String) (a b : FsPath) (c : String) :
    fileRoundForm (fileRoundForm F a b c) a b c = fileRoundForm F a b c := by
  funext p
  unfold fileRoundForm
  by_cases h1 : p = a
  · simp only [if_pos h1]
  · by_cases h2 : p = b
    · simp only [if_neg h1, if_pos h2]
    · simp only [if_neg h1, if_neg h2]

lemma moveDirs_self (d : FsPath → Option String) (a : FsPath) :
    moveDirs d a a = d := by
  cases h : d a with
  | none => exact moveDirs_none d a a h
  | some x => exact moveDirs_occupied d a a x h (by simp [h])

/-- Moving `a` out, back in, and out again lands in the same state as moving
out once. -/
lemma moveDirs_out_in_out (d : FsPath → Option String) (a b : FsPath) :
    moveDirs (moveDirs (moveDirs d a b) b a) a b = moveDirs d a b := by
  by_cases hab : a = b
  · subst hab
    rw [moveDirs_self, moveDirs_self, moveDirs_self]
  · cases h1 : d a with
    | none =>
      rw [moveDirs_none d a b h1]
      cases h2 : d b with
      | none =>
        rw [moveDirs_none d b a h2, moveDirs_none d a b h1]
      | some y =>
        rw [moveDirs_moved d b a y h2 h1]
        have hback : moveDirs
            (fun p => if p = a then some y else if p = b then none else d p) a b = d := by
          rw [moveDirs_moved _ a b y (by simp) (by simp [Ne.symm hab, h2])]
          funext p
          by_cases hp1 : p = b
          · subst hp1
            simp [Ne.symm hab, h2]
          · by_cases hp2 : p = a
            · subst hp2
              simp [hp1, h1]
            · simp [hp1, hp2]
        rw [hback]
    | some x =>
      cases h2 : d b with
      | none =>
        rw [moveDirs_moved d a b x h1 h2]
        have hback : moveDirs
            (fun p => if p = b then some x else if p = a then none else d p) b a =
              d := by
          rw [moveDirs_moved _ b a x (by simp) (by simp [hab, h1])]
          funext p
          by_cases hp1 : p = a
          · subst hp1
            simp [hab, h1]
          · by_cases hp2 : p = b
            · subst hp2
              simp [hp1, h2]
            · simp [hp1, hp2]
        rw [hback, moveDirs_moved d a b x h1 h2]
      | some y =>
        rw [moveDirs_occupied d a b x h1 (by simp [h2]),
          moveDirs_occupied d b a y h2 (by simp [h1]),
          moveDirs_occupied d a b x h1 (by simp [h2])]

/-- Trash, restore, re-trash, restore lands where the first restore did. -/
lemma moveDirs_period (d : FsPath → Option String) (a b : FsPath) :
    moveDirs (moveDirs (moveDirs (moveDirs d a b) b a) a b) b a =
      moveDirs (moveDirs d a b) b a :=
  congrArg (fun f => moveDirs f b a) (moveDirs_out_in_out d a b)

/-! #### Evaluation lemmas for the cleanup operations -/

lemma companionOf_pjoin (dir : FsPath) (name : String) :
    companionOf (pjoin dir name) = pjoin dir (stripJsonlName name) := by
  unfold companionOf pjoin pbasename
  rw [List.dropLast_concat, List.getLast?_concat]
  rfl

/-- Successful `trashSession` in one equation: file moved into the trash
area, companion moved when possible, entry appended. -/
lemma trashSession_ok_eq (now : Nat) (s : Sess) (reason : String)
    (st : TrashState) (c : String) (hfile : st.fs.files s.filePath = some c) :
    trashSession true now s reason st =
      (.ok (s.id, pjoin TRASH_DIR (pbasename s.filePath)),
       { fs := ⟨overwriteMove st.fs.files s.filePath
                  (pjoin TRASH_DIR (pbasename s.filePath)) c,
                moveDirs st.fs.dirs (companionOf s.filePath)
                  (pjoin TRASH_DIR (stripJsonlName (pbasename s.filePath)))⟩
         manifest := st.manifest ++
           [mkTrashItem s reason now (pjoin TRASH_DIR (pbasename s.filePath))] }) := by
  simp only [trashSession]
  rw [rename_ok st.fs s.filePath (pjoin TRASH_DIR (pbasename s.filePath)) c hfile]
  simp [moveCompanion_eq, pbasename_companionOf]

/-- Successful `restoreSession` in one equation. -/
lemma restoreSession_ok_eq (id : String) (st : TrashState)
    (before after : List TrashItem) (item : TrashItem) (c : String)
    (hfind : findSplit (fun i => i.id == id) st.manifest =
      some (before, item, after))
    (hfile : st.fs.files item.trashPath = some c) :
    restoreSession true id st =
      (.ok (id, resolveOriginalPath item.originalPath),
       { fs := ⟨overwriteMove st.fs.files item.trashPath
                  (resolveOriginalPath item.originalPath) c,
                moveDirs st.fs.dirs (companionOf item.trashPath)
                  (companionOf (resolveOriginalPath item.originalPath))⟩
         manifest := before ++ after }) := by
  simp only [restoreSession, hfind]
  rw [rename_ok st.fs item.trashPath (resolveOriginalPath item.originalPath) c hfile]
  simp [moveCompanion_eq]

/-- C2 (amended): when the manifest write succeeds, an error propagating out
of `trashSession` leaves the state unchanged, and a success means both the
move into the trash area and the journal append happened. -/
theorem trashSession_atomicity :
    ∀ (now : Nat) (s : Sess) (reason : String) (st : TrashState),
      (∀ (e : Err) (st2 : TrashState),
        trashSession true now s reason st = (.error e, st2) → st2 = st)
      ∧ (∀ (r : String × FsPath) (st2 : TrashState),
          trashSession true now s reason st = (.ok r, st2) →
          r = (s.id, pjoin TRASH_DIR (pbasename s.filePath))
          ∧ st2.fs.files (pjoin TRASH_DIR (pbasename s.filePath)) =
              st.fs.files s.filePath
          ∧ st2.manifest = st.manifest ++
              [mkTrashItem s reason now (pjoin TRASH_DIR (pbasename s.filePath))]) := by
  intro now s reason st
  constructor
  · intro e st2 h
    cases hfc : st.fs.files s.filePath with
    | none =>
      simp only [trashSession, FS.rename, hfc] at h
      have := congrArg Prod.snd h
      simpa using this.symm
    | some c =>
      rw [trashSession_ok_eq now s reason st c hfc] at h
      have := congrArg Prod.fst h
      simp at this
  · intro r st2 h
    cases hfc : st.fs.files s.filePath with
    | none =>
      simp only [trashSession, FS.rename, hfc] at h
      have := congrArg Prod.fst h
      simp at this
    | some c =>
      rw [trashSession_ok_eq now s reason st c hfc] at h
      have h1 : (s.id, pjoin TRASH_DIR (pbasename s.filePath)) = r := by
        have := congrArg Prod.fst h
        simpa using this
      have h2 := congrArg Prod.snd h
      simp only at h2
      subst h2
      refine ⟨h1.symm, ?_, rfl⟩
      show overwriteMove st.fs.files s.filePath
          (pjoin TRASH_DIR (pbasename s.filePath)) c
          (pjoin TRASH_DIR (pbasename s.filePath)) = some c
      simp [overwriteMove]

/-- Demo file tree: two sessions in different projects whose backing files
share the basename `x.jsonl`. -/
def projFileA : FsPath := PROJECTS_DIR ++ ["proj1", "x.jsonl"]

def projFileB : FsPath := PROJECTS_DIR ++ ["proj2", "x.jsonl"]

def trashedX : FsPath := pjoin TRASH_DIR "x.jsonl"

def fsDemo : FS :=
  ⟨fun p => if p = projFileA then some "AAA"
    else if p = projFileB then some "BBB" else none,
   fun _ => none⟩

def stDemo : TrashState := ⟨fsDemo, []⟩

def sessA : Sess := { id := "a", filePath := projFileA }

def sessB : Sess := { id := "b", filePath := projFileB }

/-- C2 counterexample: a journal-write failure after a successful move
throws while leaving the file moved and the journal without the entry —
partial state, contradicting "both happened or neither did". -/
theorem trashSession_write_failure_partial_state :
    (trashSession false 0 sessA "manual" stDemo).1 = .error .writeFailed
    ∧ ((trashSession false 0 sessA "manual" stDemo).2).fs.files projFileA = none
    ∧ ((trashSession false 0 sessA "manual" stDemo).2).fs.files trashedX = some "AAA"
    ∧ ((trashSession false 0 sessA "manual" stDemo).2).manifest = [] :=
  ⟨rfl, rfl, rfl, rfl⟩

/-- Witness for C2 on the demo state. -/
theorem trashSession_atomicity_witness :
    ((trashSession true 0 sessA "manual" stDemo).2).fs.files trashedX =
        stDemo.fs.files projFileA
    ∧ ((trashSession true 0 sessA "manual" stDemo).2).manifest =
        stDemo.manifest ++ [mkTrashItem sessA "manual" 0 trashedX] :=
  ((trashSession_atomicity 0 sessA "manual" stDemo).2
    ("a", trashedX) (trashSession true 0 sessA "manual" stDemo).2 rfl).2

/-- The demo state after trashing session `a`. -/
def stAfterA : TrashState := (trashSession true 0 sessA "manual" stDemo).2

/-- The demo state after then trashing session `b` (same basename). -/
def stAfterB : TrashState := (trashSession true 1 sessB "manual" stAfterA).2

/-- C1, failing input: both sessions trash to `trash/x.jsonl`; the second
`rename` overwrites the first session's trashed bytes, `AAA` survives
nowhere, and restoring session `a` afterwards yields `b`'s content `BBB` at
`a`'s original path. -/
theorem trash_basename_collision_overwrites :
    (trashSession true 0 sessA "manual" stDemo).1 = .ok ("a", trashedX)
    ∧ stAfterA.fs.files trashedX = some "AAA"
    ∧ (trashSession true 1 sessB "manual" stAfterA).1 = .ok ("b", trashedX)
    ∧ stAfterB.fs.files trashedX = some "BBB"
    ∧ (∀ p : FsPath, stAfterB.fs.files p ≠ some "AAA")
    ∧ (restoreSession true "a" stAfterB).1 = .ok ("a", projFileA)
    ∧ ((restoreSession true "a" stAfterB).2).fs.files projFileA = some "BBB" := by
  refine ⟨rfl, rfl, rfl, rfl, ?_, rfl, rfl⟩
  intro p
  have hfun : stAfterB.fs.files p =
      (if p = trashedX then some "BBB"
       else if p = projFileB then none
       else if p = trashedX then some "AAA"
       else if p = projFileA then none
       else if p = projFileA then some "AAA"
       else if p = projFileB then some "BBB"
       else none) := rfl
  rw [hfun]
  split_ifs <;> decide

/-! #### C5: restore / purge lookup semantics -/

/-- C5 (amended): `restore` looks the journal entry up by exact id only;
`purge` accepts an exact id or any id prefix, taking the first matching
entry with no uniqueness requirement; both fail with a not-found error,
leaving the state untouched, when nothing matches; and `purge` succeeds even
when the trashed file is already gone, still removing the journal entry. -/
theorem restore_purge_lookup :
    (∀ (wk : Bool) (id : String) (st : TrashState),
        (∀ i ∈ st.manifest, i.id ≠ id) →
        restoreSession wk id st = (.error (.notFound id), st))
    ∧ (∀ (wk : Bool) (id : String) (st : TrashState),
        (∀ i ∈ st.manifest, i.id ≠ id ∧ jsStartsWith i.id id = false) →
        deleteFromTrash wk id st = (.error (.notFound id), st))
    ∧ (∀ (id : String) (st : TrashState) (before after : List TrashItem)
          (item : TrashItem),
        findSplit (fun i => i.id == id || jsStartsWith i.id id) st.manifest =
          some (before, item, after) →
        st.fs.files item.trashPath = none →
        (deleteFromTrash true id st).1 = .ok (item.id, true)
        ∧ ((deleteFromTrash true id st).2).manifest = before ++ after) := by
  refine ⟨?_, ?_, ?_⟩
  · intro wk id st h
    unfold restoreSession
    rw [findSplit_eq_none _ _ (fun x hx => beq_eq_false_iff_ne.mpr (h x hx))]
  · intro wk id st h
    unfold deleteFromTrash
    rw [findSplit_eq_none _ _ (fun x hx => by
      rw [Bool.or_eq_false_iff]
      exact ⟨beq_eq_false_iff_ne.mpr (h x hx).1, (h x hx).2⟩)]
  · intro id st before after item hfind hgone
    simp only [deleteFromTrash, hfind]
    simp only [tryUnlink, FS.unlink, hgone]
    constructor
    · split_ifs <;> rfl
    · split_ifs <;> rfl

/-- A trashed item with a long id. -/
def longIdItem : TrashItem :=
  { id := "sess-003-long-uuid"
    originalPath := .rel ["p", "s.jsonl"]
    trashPath := pjoin TRASH_DIR "s.jsonl"
    trashedAt := 0
    reason := "auto"
    junkScore := none
    junkReasons := []
    fileSizeBytes := none
    title := none
    project := none }

def ambItem1 : TrashItem := { longIdItem with id := "ab1" }

def ambItem2 : TrashItem := { longIdItem with id := "ab2" }

def emptyFs : FS := ⟨fun _ => none, fun _ => none⟩

def prefixState : TrashState := ⟨emptyFs, [longIdItem]⟩

def ambState : TrashState := ⟨emptyFs, [ambItem1, ambItem2]⟩

/-- C5 counterexample: `restore` rejects a unique prefix that `purge`
accepts, and `purge` takes the first of two entries matching an ambiguous
prefix instead of requiring uniqueness. -/
theorem restore_prefix_lookup_counterexample :
    jsStartsWith "sess-003-long-uuid" "sess-003" = true
    ∧ (restoreSession true "sess-003" prefixState).1 =
        .error (.notFound "sess-003")
    ∧ (deleteFromTrash true "sess-003" prefixState).1 =
        .ok ("sess-003-long-uuid", true)
    ∧ jsStartsWith "ab1" "ab" = true
    ∧ jsStartsWith "ab2" "ab" = true
    ∧ (deleteFromTrash true "ab" ambState).1 = .ok ("ab1", true) :=
  ⟨by decide, rfl, rfl, by decide, by decide, rfl⟩

/-- Witness for C5: the purge branch applied to the concrete single-entry
journal whose trashed file is already gone. -/
theorem restore_purge_lookup_witness :
    findSplit (fun i => i.id == "sess-003" || jsStartsWith i.id "sess-003")
        prefixState.manifest = some ([], longIdItem, [])
    ∧ prefixState.fs.files longIdItem.trashPath = none
    ∧ (deleteFromTrash true "sess-003" prefixState).1 =
        .ok (longIdItem.id, true)
    ∧ ((deleteFromTrash true "sess-003" prefixState).2).manifest = [] := by
  refine ⟨rfl, rfl, ?_, ?_⟩
  · exact (restore_purge_lookup.2.2 "sess-003" prefixState [] [] longIdItem rfl rfl).1
  · exact (restore_purge_lookup.2.2 "sess-003" prefixState [] [] longIdItem rfl rfl).2

/-! #### C3: trash / restore round trip -/

/-- State after `trashSession` succeeds on a session whose file holds `c`. -/
def trashedOutState (now : Nat) (s : Sess) (reason : String) (st : TrashState)
    (c : String) : TrashState :=
  ⟨⟨overwriteMove st.fs.files s.filePath (pjoin TRASH_DIR (pbasename s.filePath)) c,
    moveDirs st.fs.dirs (companionOf s.filePath)
      (pjoin TRASH_DIR (stripJsonlName (pbasename s.filePath)))⟩,
   st.manifest ++ [mkTrashItem s reason now (pjoin TRASH_DIR (pbasename s.filePath))]⟩

/-- State after trashing and then restoring the same session. -/
def restoredState (s : Sess) (st : TrashState) (c : String) : TrashState :=
  ⟨⟨overwriteMove
      (overwriteMove st.fs.files s.filePath (pjoin TRASH_DIR (pbasename s.filePath)) c)
      (pjoin TRASH_DIR (pbasename s.filePath)) s.filePath c,
    moveDirs
      (moveDirs st.fs.dirs (companionOf s.filePath)
        (pjoin TRASH_DIR (stripJsonlName (pbasename s.filePath))))
      (pjoin TRASH_DIR (stripJsonlName (pbasename s.filePath)))
      (companionOf s.filePath)⟩,
   st.manifest⟩

def trashThen (now : Nat) (s : Sess) (reason : String) (st : TrashState) :
    TrashState :=
  (trashSession true now s reason st).2

def restoreThen (id : String) (st : TrashState) : TrashState :=
  (restoreSession true id st).2

/-- One trash-restore round in closed form, for a session present on disk
whose id the journal does not yet mention. -/
lemma trash_then_restore_eq (now : Nat) (s : Sess) (reason : String)
    (st : TrashState) (c : String)
    (hfile : st.fs.files s.filePath = some c)
    (hid : ∀ i ∈ st.manifest, i.id ≠ s.id)
    (hdot : ".." ∉ s.filePath) :
    trashSession true now s reason st =
      (.ok (s.id, pjoin TRASH_DIR (pbasename s.filePath)),
        trashedOutState now s reason st c)
    ∧ restoreSession true s.id (trashedOutState now s reason st c) =
      (.ok (s.id, s.filePath), restoredState s st c) := by
  constructor
  · exact trashSession_ok_eq now s reason st c hfile
  · have hfind : findSplit (fun i => i.id == s.id)
        (trashedOutState now s reason st c).manifest =
        some (st.manifest,
          mkTrashItem s reason now (pjoin TRASH_DIR (pbasename s.filePath)), []) :=
      findSplit_append_singleton _ st.manifest _
        (fun y hy => beq_eq_false_iff_ne.mpr (hid y hy)) (beq_self_eq_true s.id)
    have hfl : (trashedOutState now s reason st c).fs.files
        (mkTrashItem s reason now (pjoin TRASH_DIR (pbasename s.filePath))).trashPath =
        some c := by
      simp [trashedOutState, mkTrashItem, overwriteMove]
    have h := restoreSession_ok_eq s.id (trashedOutState now s reason st c)
      st.manifest []
      (mkTrashItem s reason now (pjoin TRASH_DIR (pbasename s.filePath)))
      c hfind hfl
    rw [h]
    have hres : resolveOriginalPath
        (mkTrashItem s reason now (pjoin TRASH_DIR (pbasename s.filePath))).originalPath =
        s.filePath := presolve_prelative PROJECTS_DIR s.filePath hdot
    rw [hres]
    simp only [trashedOutState, mkTrashItem]
    rw [companionOf_pjoin]
    simp [restoredState]

/-- C3 (amended): for a session whose file is present at its original path,
whose path has no `..` component, and whose id no existing journal entry
carries, trashing then restoring succeeds, puts the original bytes back at
the original path, leaves the journal with zero entries for that id (exactly
the original journal), and restore / re-trash / restore reproduces the same
end state. -/
theorem trash_restore_roundtrip (now1 now2 : Nat) (s : Sess) (reason : String)
    (st : TrashState) (c : String)
    (hfile : st.fs.files s.filePath = some c)
    (hid : ∀ i ∈ st.manifest, i.id ≠ s.id)
    (hdot : ".." ∉ s.filePath) :
    (trashSession true now1 s reason st).1 =
        .ok (s.id, pjoin TRASH_DIR (pbasename s.filePath))
    ∧ (restoreSession true s.id (trashThen now1 s reason st)).1 =
        .ok (s.id, s.filePath)
    ∧ (restoreThen s.id (trashThen now1 s reason st)).fs.files s.filePath = some c
    ∧ (restoreThen s.id (trashThen now1 s reason st)).manifest = st.manifest
    ∧ (restoreThen s.id (trashThen now1 s reason st)).manifest.countP
        (fun i => i.id == s.id) = 0
    ∧ restoreThen s.id (trashThen now2 s reason
          (restoreThen s.id (trashThen now1 s reason st))) =
        restoreThen s.id (trashThen now1 s reason st) := by
  obtain ⟨h1, h2⟩ := trash_then_restore_eq now1 s reason st c hfile hid hdot
  have hA1 : trashThen now1 s reason st = trashedOutState now1 s reason st c := by
    unfold trashThen
    rw [h1]
  have hA2 : restoreThen s.id (trashThen now1 s reason st) = restoredState s st c := by
    unfold restoreThen
    rw [hA1, h2]
  refine ⟨by rw [h1], by rw [hA1, h2], ?_, ?_, ?_, ?_⟩
  · rw [hA2]
    simp [restoredState, overwriteMove]
  · rw [hA2]
    rfl
  · rw [hA2]
    exact List.countP_eq_zero.mpr (fun i hi => by simp [hid i hi])
  · have hfile2 : (restoredState s st c).fs.files s.filePath = some c := by
      simp [restoredState, overwriteMove]
    have hid2 : ∀ i ∈ (restoredState s st c).manifest, i.id ≠ s.id := hid
    obtain ⟨h3, h4⟩ :=
      trash_then_restore_eq now2 s reason (restoredState s st c) c hfile2 hid2 hdot
    have hA3 : trashThen now2 s reason (restoredState s st c) =
        trashedOutState now2 s reason (restoredState s st c) c := by
      unfold trashThen
      rw [h3]
    have hA4 : restoreThen s.id (trashThen now2 s reason (restoredState s st c)) =
        restoredState s (restoredState s st c) c := by
      unfold restoreThen
      rw [hA3, h4]
    rw [hA2, hA4]
    have e1 : overwriteMove
        (overwriteMove st.fs.files s.filePath (pjoin TRASH_DIR (pbasename s.filePath)) c)
        (pjoin TRASH_DIR (pbasename s.filePath)) s.filePath c =
        fileRoundForm st.fs.files s.filePath (pjoin TRASH_DIR (pbasename s.filePath)) c :=
      overwriteMove_pair ..
    have hRS : restoredState s st c =
        TrashState.mk
          ⟨fileRoundForm st.fs.files s.filePath (pjoin TRASH_DIR (pbasename s.filePath)) c,
            moveDirs (moveDirs st.fs.dirs (companionOf s.filePath)
                (pjoin TRASH_DIR (stripJsonlName (pbasename s.filePath))))
              (pjoin TRASH_DIR (stripJsonlName (pbasename s.filePath)))
              (companionOf s.filePath)⟩
          st.manifest := by
      unfold restoredState
      rw [e1]
    rw [hRS]
    show TrashState.mk
        ⟨overwriteMove (overwriteMove
            (fileRoundForm st.fs.files s.filePath (pjoin TRASH_DIR (pbasename s.filePath)) c)
            s.filePath (pjoin TRASH_DIR (pbasename s.filePath)) c)
            (pjoin TRASH_DIR (pbasename s.filePath)) s.filePath c,
          moveDirs (moveDirs
            (moveDirs (moveDirs st.fs.dirs (companionOf s.filePath)
                (pjoin TRASH_DIR (stripJsonlName (pbasename s.filePath))))
              (pjoin TRASH_DIR (stripJsonlName (pbasename s.filePath)))
              (companionOf s.filePath))
            (companionOf s.filePath)
            (pjoin TRASH_DIR (stripJsonlName (pbasename s.filePath))))
          (pjoin TRASH_DIR (stripJsonlName (pbasename s.filePath)))
          (companionOf s.filePath)⟩
        st.manifest =
      TrashState.mk
        ⟨fileRoundForm st.fs.files s.filePath (pjoin TRASH_DIR (pbasename s.filePath)) c,
          moveDirs (moveDirs st.fs.dirs (companionOf s.filePath)
              (pjoin TRASH_DIR (stripJsonlName (pbasename s.filePath))))
            (pjoin TRASH_DIR (stripJsonlName (pbasename s.filePath)))
            (companionOf s.filePath)⟩
        st.manifest
    rw [overwriteMove_pair, fileRoundForm_idem,
      moveDirs_period st.fs.dirs (companionOf s.filePath)
        (pjoin TRASH_DIR (stripJsonlName (pbasename s.filePath)))]

/-- A journal that already holds an entry with id `a` (its file sits in the
trash area) while the session file was recreated at the original path — a
state reachable by trashing, recreating the file, and trashing again. -/
def oldItemA : TrashItem :=
  { id := "a"
    originalPath := .rel ["proj1", "x.jsonl"]
    trashPath := trashedX
    trashedAt := 0
    reason := "manual"
    junkScore := none
    junkReasons := []
    fileSizeBytes := none
    title := none
    project := none }

def dupState : TrashState :=
  ⟨⟨fun p => if p = projFileA then some "NEW"
      else if p = trashedX then some "OLD" else none,
    fun _ => none⟩,
   [oldItemA]⟩

/-- C3 counterexample: with a pre-existing journal entry for the same id,
trashing and then restoring the session leaves the journal still holding one
entry referencing that id, not zero as the claim states. -/
theorem trash_restore_duplicate_id_counterexample :
    (restoreSession true "a" (trashThen 1 sessA "manual" dupState)).1 =
        .ok ("a", projFileA)
    ∧ (restoreThen "a" (trashThen 1 sessA "manual" dupState)).manifest.countP
        (fun i => i.id == "a") = 1 :=
  ⟨rfl, by decide⟩

/-- Witness for C3 at the demo state (empty journal, file `AAA` on disk). -/
theorem trash_restore_roundtrip_witness :
    stDemo.fs.files sessA.filePath = some "AAA"
    ∧ (".." ∉ sessA.filePath)
    ∧ (restoreThen sessA.id (trashThen 0 sessA "manual" stDemo)).fs.files
        sessA.filePath = some "AAA"
    ∧ (restoreThen sessA.id (trashThen 0 sessA "manual" stDemo)).manifest = []
    ∧ restoreThen sessA.id (trashThen 1 sessA "manual"
          (restoreThen sessA.id (trashThen 0 sessA "manual" stDemo))) =
        restoreThen sessA.id (trashThen 0 sessA "manual" stDemo) :=
  ⟨rfl, by decide,
    (trash_restore_roundtrip 0 1 sessA "manual" stDemo "AAA" rfl
      (fun i hi => absurd hi (List.not_mem_nil i)) (by decide)).2.2.1,
    (trash_restore_roundtrip 0 1 sessA "manual" stDemo "AAA" rfl
      (fun i hi => absurd hi (List.not_mem_nil i)) (by decide)).2.2.2.1,
    (trash_restore_roundtrip 0 1 sessA "manual" stDemo "AAA" rfl
      (fun i hi => absurd hi (List.not_mem_nil i)) (by decide)).2.2.2.2.2⟩

end Csesh
